import Mathlib

/-!
Shallow embedding of `lecroyutils/control.py`: the VBS command codec
(`_escape`, `_unpack_response`) and the session adapter (`LecroyComm`,
the waveform path of `LecroyScope`).

Modelling choices:
* Python `str` is Lean `String`; `str.upper()` is modelled character-wise
  with `Char.toUpper` (adequate on the ASCII range every protocol string
  here lives in).
* Python floats appearing as timeout durations are modelled as `ℚ`
  (only `+` and save/restore of the value matter to the claims).
* A Python float passed as a VBS argument is carried together with the
  decimal text its `repr` produces, since `_escape` only ever renders it.
  Python `bool` is a subclass of `int` that is not a `str`, so
  `_escape(False)` is `repr(False) = "False"`; it gets its own tag.
* The vxi11 instrument handle is an explicit `Scope` state: the session
  timeout, the trace of written lines (each paired with the timeout in
  force at the moment of the write), a script of pending line replies and
  raw (byte-block) replies, and a fault-injection flag for writes.
  A read fails (transport fault / timeout) when its script is exhausted.
* Python exceptions are the `CallResult` type: it carries the post-call
  state on both outcomes, because a raised exception leaves the mutated
  object state behind.
-/

/-- Python `bool(s)` for a `str`: nonempty strings are truthy. -/
def pyStrTruthy (s : String) : Bool := !(s == "")

/-- Python `s.upper()` (ASCII range), character by character on the
code-point sequence. -/
def pyUpper (s : String) : String := String.mk (s.data.map Char.toUpper)

/-- Python `repr` on an `int`: its decimal rendering. -/
def pyIntRepr (i : Int) : String := toString i

/-- `VBSValue = Union[str, int, float]` from `control.py`.  Python `bool`
values also flow in through callers such as `acquire` (bool is an `int`
subtype); a float is carried with the text `repr` renders for it. -/
inductive VBSValue where
  | str : String → VBSValue
  | int : Int → VBSValue
  | bool : Bool → VBSValue
  | float : String → VBSValue
deriving DecidableEq

/-- `_escape` from `control.py`: strings are wrapped in double quotes
(no escaping), everything else is rendered by `repr`. -/
def _escape : VBSValue → String
  | .str s => "\"" ++ s ++ "\""
  | .int i => pyIntRepr i
  | .bool b => if b then "True" else "False"
  | .float r => r

/-- `_unpack_response` from `control.py`:
`if res[:4].upper() == 'VBS ': return res[4:]` else `return res`.
Slicing is on the code-point sequence `res.data`. -/
def _unpack_response (res : String) : String :=
  if (res.data.take 4).map Char.toUpper = "VBS ".data then
    String.mk (res.data.drop 4)
  else res

/-- Errors a call can raise: transport write/read faults (vxi11 layer),
a failed `assert`, and an ordinary `raise Exception(msg)`. -/
inductive PyErr where
  | writeFailed : PyErr
  | readFailed : PyErr
  | assertionFailed : PyErr
  | exn : String → PyErr
deriving DecidableEq

/-- The vxi11 instrument session state. `written` records every line
written together with the session timeout in force at that write;
`replies` / `rawReplies` script what `read` / `read_raw` will return. -/
structure Scope where
  timeout : ℚ
  written : List (String × ℚ)
  replies : List String
  rawReplies : List (List Nat)
  writeOk : Bool
deriving DecidableEq

/-- Outcome of a call: a value or a raised error, in both cases together
with the instrument state after the call (exceptions do not roll back
object state). -/
inductive CallResult (α : Type) where
  | ok : α → Scope → CallResult α
  | err : PyErr → Scope → CallResult α
deriving DecidableEq

/-- The instrument state after a call, whatever the outcome. -/
def CallResult.state {α : Type} : CallResult α → Scope
  | .ok _ σ => σ
  | .err _ σ => σ

/-- `vxi11.Instrument.write`: appends the line to the trace, or raises a
transport fault when the injected write fault is armed. -/
def Scope.write (σ : Scope) (s : String) : CallResult Unit :=
  if σ.writeOk then
    .ok () { σ with written := σ.written ++ [(s, σ.timeout)] }
  else .err .writeFailed σ

/-- `vxi11.Instrument.read`: returns the next scripted reply line, or
raises a transport fault / timeout when the script is exhausted. -/
def Scope.read (σ : Scope) : CallResult String :=
  match σ.replies with
  | [] => .err .readFailed σ
  | r :: rest => .ok r { σ with replies := rest }

/-- `vxi11.Instrument.read_raw`: returns the next scripted byte block, or
raises a transport fault / timeout when the script is exhausted. -/
def Scope.read_raw (σ : Scope) : CallResult (List Nat) :=
  match σ.rawReplies with
  | [] => .err .readFailed σ
  | r :: rest => .ok r { σ with rawReplies := rest }

/-- `LecroyComm.action`: `self.scope.write(f"VBS '{action}'")`. -/
def LecroyComm.action (a : String) (σ : Scope) : CallResult Unit :=
  σ.write ("VBS '" ++ a ++ "'")

/-- `LecroyComm.set`: `self.scope.write(f"VBS '{var} = {_escape(value)}'")`. -/
def LecroyComm.set (var : String) (value : VBSValue) (σ : Scope) :
    CallResult Unit :=
  σ.write ("VBS '" ++ var ++ " = " ++ _escape value ++ "'")

/-- `LecroyComm.method` from `control.py`, line for line: save
`old_timeout`; if a per-call `timeout` was given install
`timeout + old_timeout`; join the escaped arguments with `", "`; write
the `VBS? 'return = …(…)'` line; read and unpack one reply; restore the
saved timeout; return.  An exception from the write or the read
propagates at once — the restore statement is straight-line code after
the read and is then never reached. -/
def LecroyComm.method (meth : String) (args : List VBSValue)
    (timeout : Option ℚ) (σ : Scope) : CallResult String :=
  let old_timeout := σ.timeout
  let σ1 := match timeout with
    | some t => { σ with timeout := t + old_timeout }
    | none => σ
  let arg_string := String.intercalate ", " (args.map _escape)
  match σ1.write ("VBS? 'return = " ++ meth ++ "(" ++ arg_string ++ ")'") with
  | .err e σ2 => .err e σ2
  | .ok _ σ2 =>
    match σ2.read with
    | .err e σ3 => .err e σ3
    | .ok res σ3 =>
      .ok (_unpack_response res) { σ3 with timeout := old_timeout }

/-- `LecroyComm.read`: write `VBS? 'return = <var>'`, read one line,
unpack it. -/
def LecroyComm.read (var : String) (σ : Scope) : CallResult String :=
  match σ.write ("VBS? 'return = " ++ var ++ "'") with
  | .err e σ2 => .err e σ2
  | .ok _ σ2 =>
    match σ2.read with
    | .err e σ3 => .err e σ3
    | .ok res σ3 => .ok (_unpack_response res) σ3

/-- `LecroyComm.wait_opc`: write `*OPC?`, read the reply, then
`assert opc == '1' or '*OPC 1'`.  Python's `or` keeps the first truthy
operand, and `assert` tests truthiness of the whole expression, so the
asserted condition is `(opc == '1') or bool('*OPC 1')`, with the second
disjunct a nonempty — hence truthy — string literal. -/
def LecroyComm.wait_opc (σ : Scope) : CallResult Unit :=
  match σ.write "*OPC?" with
  | .err e σ2 => .err e σ2
  | .ok _ σ2 =>
    match σ2.read with
    | .err e σ3 => .err e σ3
    | .ok opc σ3 =>
      if (opc == "1") || pyStrTruthy "*OPC 1" then .ok () σ3
      else .err .assertionFailed σ3

/-- `LecroyScope.check_channel`: raise
`Exception(f'Channel {channel} not available.')` when the uppercased
name is not among the discovered channels.  `none` means the check
passed, `some msg` the raised exception's message. -/
def LecroyScope.check_channel (avail : List String) (channel : String) :
    Option String :=
  if pyUpper channel ∉ avail then
    some ("Channel " ++ channel ++ " not available.")
  else none

/-- `LecroyScope.check_source`: digital channels are unsupported, so it
is exactly `check_channel`. -/
def LecroyScope.check_source (avail : List String) (source : String) :
    Option String :=
  LecroyScope.check_channel avail source

/-- `LecroyScope._waveform_raw`: `check_source`, then
`self._comm.scope.write(f'{source}:WF?')`, then one
`self._comm.scope.read_raw()` whose result is returned as-is. -/
def LecroyScope._waveform_raw (avail : List String) (source : String)
    (σ : Scope) : CallResult (List Nat) :=
  match LecroyScope.check_source avail source with
  | some msg => .err (.exn msg) σ
  | none =>
    match σ.write (source ++ ":WF?") with
    | .err e σ2 => .err e σ2
    | .ok _ σ2 => σ2.read_raw

/-- C3: for every response line whose first four characters, compared
case-insensitively, are `VBS `, `_unpack_response` returns the line with
exactly those four characters removed (the remainder verbatim, so the
line is the stripped four characters followed by the result); every
other line, the ones shorter than four characters included, is returned
unchanged. -/
theorem unpack_response_strips_exactly_vbs_marker (L : String) :
    ((L.data.take 4).map Char.toUpper = ['V', 'B', 'S', ' '] →
      _unpack_response L = String.mk (L.data.drop 4) ∧
      String.mk (L.data.take 4) ++ _unpack_response L = L) ∧
    ((L.data.take 4).map Char.toUpper ≠ ['V', 'B', 'S', ' '] →
      _unpack_response L = L) := by
  constructor
  · intro h
    have hc : (L.data.take 4).map Char.toUpper = "VBS ".data := h
    constructor
    · simp [_unpack_response, hc]
    · simp only [_unpack_response, hc, if_pos]
      show String.mk (L.data.take 4 ++ L.data.drop 4) = L
      rw [List.take_append_drop]
  · intro h
    have hc : ¬ (L.data.take 4).map Char.toUpper = "VBS ".data := h
    unfold _unpack_response
    rw [if_neg hc]

/-- C3 witness: a lowercase-prefixed line is stripped, a short line
passes through. -/
theorem unpack_response_strips_exactly_vbs_marker_witness :
    _unpack_response "vbs X" = "X" ∧ _unpack_response "ab" = "ab" := by
  constructor
  · exact (((unpack_response_strips_exactly_vbs_marker "vbs X").1
      (by decide)).1).trans (by decide)
  · exact (unpack_response_strips_exactly_vbs_marker "ab").2 (by decide)

/-- C4: `_unpack_response` is not idempotent — on a line whose payload
itself starts (case-insensitively) with `VBS `, a second application
strips the prefix again. -/
theorem unpack_response_not_idempotent :
    ∃ L : String,
      (((_unpack_response L).data.take 4).map Char.toUpper
          = ['V', 'B', 'S', ' ']) ∧
      _unpack_response (_unpack_response L) ≠ _unpack_response L :=
  ⟨"VBS VBS x", by decide, by decide⟩

/-- C5: on a text value containing no double-quote character, `_escape`
returns exactly the value wrapped in one leading and one trailing
double quote. -/
theorem escape_text_wraps_in_quotes (v : String) (_h : '"' ∉ v.data) :
    _escape (.str v) = "\"" ++ v ++ "\"" := rfl

/-- C5 witness at a concrete quote-free value. -/
theorem escape_text_wraps_in_quotes_witness :
    '"' ∉ "app".data ∧ _escape (.str "app") = "\"app\"" :=
  ⟨by decide, escape_text_wraps_in_quotes "app" (by decide)⟩

/-- C7: a `method` call with per-call extension `T` whose write and read
succeed appends exactly one line to the write trace, of the form
`VBS? 'return = <path>(<args>)'` with the arguments escaped in call
order and joined by `", "` (the empty sequence giving `<path>()`), with
the session timeout in force at the write equal to baseline `+ T`;
exactly one reply is consumed, its unpacked payload is returned, and the
baseline timeout is restored. -/
theorem method_wire_format_and_effective_timeout (meth : String)
    (args : List VBSValue) (T : ℚ) (σ : Scope) (r : String)
    (rest : List String) (hw : σ.writeOk = true)
    (hr : σ.replies = r :: rest) :
    LecroyComm.method meth args (some T) σ =
      .ok (_unpack_response r)
        { σ with
            written := σ.written ++
              [("VBS? 'return = " ++ meth ++ "(" ++
                  String.intercalate ", " (args.map _escape) ++ ")'",
                σ.timeout + T)],
            replies := rest } := by
  have hadd : T + σ.timeout = σ.timeout + T := add_comm T σ.timeout
  cases σ with
  | mk t w rs raws ok =>
    simp only at hw hr hadd
    simp [LecroyComm.method, Scope.write, hw, Scope.read, hr, hadd]

/-- C7 witness: the acquisition scenario, with a float argument rendered
`0.1`, a bool rendered `False`, baseline timeout 5 and extension 2; the
write goes out under the effective timeout `5 + 2`. -/
theorem method_wire_format_and_effective_timeout_witness :
    LecroyComm.method "app.Acquisition.acquire" [.float "0.1", .bool false]
        (some 2) ⟨5, [], ["1"], [], true⟩ =
      .ok "1"
        ⟨5, [("VBS? 'return = app.Acquisition.acquire(0.1, False)'", 5 + 2)],
          [], [], true⟩ := by
  have h := method_wire_format_and_effective_timeout "app.Acquisition.acquire"
    [.float "0.1", .bool false] 2 ⟨5, [], ["1"], [], true⟩ "1" [] rfl rfl
  exact h

/-- C8: `read p` writes exactly one line `VBS? 'return = <p>'`, consumes
exactly one reply line and returns it after one `_unpack_response`. -/
theorem read_wire_format (p : String) (σ : Scope) (r : String)
    (rest : List String) (hw : σ.writeOk = true)
    (hr : σ.replies = r :: rest) :
    LecroyComm.read p σ =
      .ok (_unpack_response r)
        { σ with
            written := σ.written ++ [("VBS? 'return = " ++ p ++ "'", σ.timeout)],
            replies := rest } := by
  cases σ with
  | mk t w rs raws ok =>
    simp only at hw hr
    simp [LecroyComm.read, Scope.write, hw, Scope.read, hr]

/-- C8 witness: the serial-number scenario — the query line is sent and
the framed reply `VBS SN12345` comes back unpacked to `SN12345`. -/
theorem read_wire_format_witness :
    LecroyComm.read "app.SerialNumber" ⟨5, [], ["VBS SN12345"], [], true⟩ =
      .ok "SN12345"
        ⟨5, [("VBS? 'return = app.SerialNumber'", 5)], [], [], true⟩ := by
  have h := read_wire_format "app.SerialNumber"
    ⟨5, [], ["VBS SN12345"], [], true⟩ "VBS SN12345" [] rfl rfl
  exact h

/-- C9: on a source whose uppercased name the availability check accepts,
`_waveform_raw` writes exactly the one line `<source>:WF?`, performs
exactly one raw read and returns that block unmodified. -/
theorem waveform_raw_sends_query_and_returns_block (avail : List String)
    (source : String) (σ : Scope) (b : List Nat) (rest : List (List Nat))
    (hs : pyUpper source ∈ avail) (hw : σ.writeOk = true)
    (hr : σ.rawReplies = b :: rest) :
    LecroyScope._waveform_raw avail source σ =
      .ok b
        { σ with
            written := σ.written ++ [(source ++ ":WF?", σ.timeout)],
            rawReplies := rest } := by
  cases σ with
  | mk t w rs raws ok =>
    simp only at hw hr
    simp [LecroyScope._waveform_raw, LecroyScope.check_source,
      LecroyScope.check_channel, hs, Scope.write, hw, Scope.read_raw, hr]

/-- C9 witness: capturing `C1` on a scope advertising channels C1, C2. -/
theorem waveform_raw_sends_query_and_returns_block_witness :
    LecroyScope._waveform_raw ["C1", "C2"] "C1"
        ⟨5, [], [], [[3, 1, 4]], true⟩ =
      .ok [3, 1, 4] ⟨5, [("C1:WF?", 5)], [], [], true⟩ := by
  have h := waveform_raw_sends_query_and_returns_block ["C1", "C2"] "C1"
    ⟨5, [], [], [[3, 1, 4]], true⟩ [3, 1, 4] [] (by decide) rfl rfl
  exact h

/-- C10: on a source whose uppercased name is not among the available
channels, `_waveform_raw` raises before touching the transport — the
returned state is the input state, so nothing was written and no raw
read was consumed. -/
theorem waveform_raw_unavailable_source_no_io (avail : List String)
    (source : String) (σ : Scope) (hs : pyUpper source ∉ avail) :
    LecroyScope._waveform_raw avail source σ =
      .err (.exn ("Channel " ++ source ++ " not available.")) σ := by
  simp [LecroyScope._waveform_raw, LecroyScope.check_source,
    LecroyScope.check_channel, hs]

/-- C10 witness: `C5` is rejected when only C1, C2 were discovered; the
trace and the raw-reply script are untouched. -/
theorem waveform_raw_unavailable_source_no_io_witness :
    LecroyScope._waveform_raw ["C1", "C2"] "C5"
        ⟨5, [], [], [[3, 1, 4]], true⟩ =
      .err (.exn "Channel C5 not available.")
        ⟨5, [], [], [[3, 1, 4]], true⟩ := by
  have h := waveform_raw_unavailable_source_no_io ["C1", "C2"] "C5"
    ⟨5, [], [], [[3, 1, 4]], true⟩ (by decide)
  exact h

/-- C1 counterexample: a concrete `method` call with extension 2 on a
baseline of 5 whose read fails (empty reply script) leaves the session
timeout at the extended value — the post-call timeout is not the
pre-call baseline, so restoration does not happen on the error path. -/
theorem method_timeout_not_restored_on_read_failure :
    (LecroyComm.method "app.WaitUntilIdle" [] (some 2)
        ⟨5, [], [], [], true⟩).state.timeout ≠ 5 := by
  have hv : (LecroyComm.method "app.WaitUntilIdle" [] (some 2)
      ⟨5, [], [], [], true⟩).state.timeout = 2 + 5 := rfl
  rw [hv]
  norm_num

/-- C1 amended: with a per-call extension `T`, the baseline timeout is
restored when the write and the read both succeed; but when the
transport write fails, or the read fails or times out, the raised
exception skips the restore statement and the session timeout stays at
the effective value baseline `+ T`. -/
theorem method_timeout_restoration_paths (meth : String)
    (args : List VBSValue) (T : ℚ) (σ : Scope) :
    (∀ r rest, σ.writeOk = true → σ.replies = r :: rest →
      (LecroyComm.method meth args (some T) σ).state.timeout = σ.timeout) ∧
    (σ.writeOk = false →
      (LecroyComm.method meth args (some T) σ).state.timeout
        = σ.timeout + T) ∧
    (σ.writeOk = true → σ.replies = [] →
      (LecroyComm.method meth args (some T) σ).state.timeout
        = σ.timeout + T) := by
  obtain ⟨t, w, rs, raws, ok⟩ := σ
  refine ⟨?_, ?_, ?_⟩
  · intro r rest hw hr
    simp only at hw hr
    simp [LecroyComm.method, Scope.write, hw, Scope.read, hr,
      CallResult.state]
  · intro hw
    simp only at hw
    simp [LecroyComm.method, Scope.write, hw, CallResult.state, add_comm]
  · intro hw hr
    simp only at hw hr
    simp [LecroyComm.method, Scope.write, hw, Scope.read, hr,
      CallResult.state, add_comm]

/-- C1 amended, witness: baseline 5, extension 2 — restored to 5 on the
success path, left at `5 + 2` when the write fails and when the read
fails. -/
theorem method_timeout_restoration_paths_witness :
    (LecroyComm.method "app.WaitUntilIdle" [] (some 2)
        ⟨5, [], ["1"], [], true⟩).state.timeout = 5 ∧
    (LecroyComm.method "app.WaitUntilIdle" [] (some 2)
        ⟨5, [], [], [], false⟩).state.timeout = 5 + 2 ∧
    (LecroyComm.method "app.WaitUntilIdle" [] (some 2)
        ⟨5, [], [], [], true⟩).state.timeout = 5 + 2 := by
  refine ⟨?_, ?_, ?_⟩
  · exact (method_timeout_restoration_paths "app.WaitUntilIdle" [] 2
      ⟨5, [], ["1"], [], true⟩).1 "1" [] rfl rfl
  · exact (method_timeout_restoration_paths "app.WaitUntilIdle" [] 2
      ⟨5, [], [], [], false⟩).2.1 rfl
  · exact (method_timeout_restoration_paths "app.WaitUntilIdle" [] 2
      ⟨5, [], [], [], true⟩).2.2 rfl rfl

/-- C2, evaluating the code at the claim's failing inputs: because the
asserted expression is `(opc == '1') or '*OPC 1'` — whose right operand
is a truthy nonempty string literal rather than a comparison —
`wait_opc` accepts the replies `ERROR`, the empty string and `0`
instead of reporting a violation. -/
theorem wait_opc_accepts_any_reply :
    LecroyComm.wait_opc ⟨5, [], ["ERROR"], [], true⟩ =
      .ok () ⟨5, [("*OPC?", 5)], [], [], true⟩ ∧
    LecroyComm.wait_opc ⟨5, [], [""], [], true⟩ =
      .ok () ⟨5, [("*OPC?", 5)], [], [], true⟩ ∧
    LecroyComm.wait_opc ⟨5, [], ["0"], [], true⟩ =
      .ok () ⟨5, [("*OPC?", 5)], [], [], true⟩ :=
  ⟨rfl, rfl, rfl⟩
